import Mathlib

/-!
# Verification of the sensex-flask OHLCV resampling and caching core

Shallow embedding of `src/app.py`: the resampling engine `resample_ohlcv`
(lines 29–76), the request orchestrator `get_chart` (lines 117–227), the
symbol-extraction regex, the timestamp parser, the session filter, the L2
result cache and the two file encodings (parquet / csv).

Conventions of the embedding:
* a pandas DataFrame of candles is a `List Row`, one `Row` per row;
* a timestamp is parsed (as `pd.to_datetime(..., format='%Y-%m-%d %H:%M:%S',
  errors='coerce')` does, zero-padded fields) into `(dateKey, sod)`:
  `dateKey = y*10000 + m*100 + d` and `sod` = seconds after midnight;
  unparsable timestamps become `none` (NaT) and are dropped (`dropna`);
* `float32` prices are embedded as `Rat` (the engine only compares, never
  adds, prices) and `int32` volumes as `Int` (volume sums stay far from the
  32-bit range in every statement below, so wraparound is not modelled);
* `df.sort_index()` is a stable insertion sort on the integer key
  `dateKey*86400 + sod` (pandas does not specify tie order; no claim below
  depends on the tie order);
* pandas `resample(rule, label="left", closed="left", origin='9:15:00')
  .apply(agg).dropna(subset=['open','high','low','close'])` is embedded as:
  the bucket starts occupied by at least one candle, in ascending order
  (the `dropna` removes exactly the generated empty buckets), each
  aggregated with first/max/min/last/sum;
* the `LRUCache(maxsize=200)` is an association list; eviction is not
  modelled (no claim depends on the capacity being reached);
* the chunked readers (100000-row batches) filter each batch and
  concatenate the matches; a per-batch filter followed by concatenation
  equals one filter over the whole file, which is how the read is embedded.
-/

/-! ## Timestamps: `pd.to_datetime(..., format='%Y-%m-%d %H:%M:%S')` -/

/-- Value of an ASCII digit. -/
def digitVal (c : Char) : Nat := c.toNat - 48

/-- ASCII digit test (`\d` of the format string on the data at hand). -/
def isDigitCh (c : Char) : Bool := 48 ≤ c.toNat && c.toNat ≤ 57

/-- Gregorian leap year, as pandas validates dates. -/
def isLeapYear (y : Nat) : Bool := (y % 4 = 0 && ¬ y % 100 = 0) || y % 400 = 0

/-- Days in a month, for date validation. -/
def daysInMonth (y m : Nat) : Nat :=
  if m = 2 then (if isLeapYear y then 29 else 28)
  else if m = 4 ∨ m = 6 ∨ m = 9 ∨ m = 11 then 30
  else 31

/-- `pd.to_datetime(s, format='%Y-%m-%d %H:%M:%S', errors='coerce')`:
`some (dateKey, sod)` with `dateKey = y*10000+m*100+d` (calendar order =
numeric order) and `sod` = seconds after midnight, or `none` (NaT) when the
string does not match the format or is not a valid calendar date-time. -/
def parseTs (s : String) : Option (Nat × Nat) :=
  match s.data with
  | [y1, y2, y3, y4, '-', m1, m2, '-', d1, d2, ' ',
     h1, h2, ':', n1, n2, ':', s1, s2] =>
    if (isDigitCh y1 && isDigitCh y2 && isDigitCh y3 && isDigitCh y4 &&
        isDigitCh m1 && isDigitCh m2 && isDigitCh d1 && isDigitCh d2 &&
        isDigitCh h1 && isDigitCh h2 && isDigitCh n1 && isDigitCh n2 &&
        isDigitCh s1 && isDigitCh s2) then
      let y := ((digitVal y1 * 10 + digitVal y2) * 10 + digitVal y3) * 10 + digitVal y4
      let mo := digitVal m1 * 10 + digitVal m2
      let dy := digitVal d1 * 10 + digitVal d2
      let hr := digitVal h1 * 10 + digitVal h2
      let mi := digitVal n1 * 10 + digitVal n2
      let sc := digitVal s1 * 10 + digitVal s2
      if 1 ≤ mo && mo ≤ 12 && 1 ≤ dy && dy ≤ daysInMonth y mo &&
         hr ≤ 23 && mi ≤ 59 && sc ≤ 59 then
        some (y * 10000 + mo * 100 + dy, (hr * 60 + mi) * 60 + sc)
      else none
    else none
  | _ => none

/-- 09:15:00 as seconds after midnight (`between_time("09:15", ...)`). -/
def SESSION_OPEN : Nat := 33300

/-- 15:30:00 as seconds after midnight (`between_time(..., "15:30")`). -/
def SESSION_CLOSE : Nat := 55800

/-! ## Data model -/

/-- One row of a dataset restricted to `COLS_TO_USE` (app.py line 154):
`timestamp` and `tradingsymbol` stay strings, prices are `float32`
(embedded as `Rat`), volume is `int32` (embedded as `Int`).
`op` is the `open` column (`open` is a Lean keyword). -/
structure Row where
  timestamp : String
  tradingsymbol : String
  op : Rat
  high : Rat
  low : Rat
  close : Rat
  volume : Int
deriving DecidableEq, Repr

/-- A candle whose timestamp has been parsed (a row of the DataFrame after
`to_datetime` + `dropna` + `set_index`). -/
structure PCandle where
  dateKey : Nat
  sod : Nat
  op : Rat
  high : Rat
  low : Rat
  close : Rat
  volume : Int
deriving DecidableEq, Repr

/-- One output record of `resample_ohlcv`: timestamp (as date key and
seconds-of-day of the formatted label) plus the aggregated OHLCV fields. -/
structure Bar where
  tsDate : Nat
  tsSod : Nat
  op : Rat
  high : Rat
  low : Rat
  close : Rat
  volume : Int
deriving DecidableEq, Repr

/-- Linear sort key of a parsed candle: `sod < 86400`, so this orders
candles chronologically (`df.sort_index()`). -/
def tkey (x : PCandle) : Nat := x.dateKey * 86400 + x.sod

/-- Linear sort key of an output bar (`pd.concat(parts).sort_index()`). -/
def barTkey (b : Bar) : Nat := b.tsDate * 86400 + b.tsSod

/-! ## Generic list machinery: stable sort, first-occurrence dedup -/

/-- Insert into a list sorted by key `f`, before the first strictly/equal
larger element (stable insertion). -/
def insertOn (f : α → Nat) (x : α) : List α → List α
  | [] => [x]
  | y :: ys => if f x ≤ f y then x :: y :: ys else y :: insertOn f x ys

/-- Stable insertion sort by key `f`: the embedding of `sort_index()`. -/
def sortOn (f : α → Nat) : List α → List α
  | [] => []
  | x :: xs => insertOn f x (sortOn f xs)

/-- Fuel-indexed helper for `dedupFirst` (structural recursion on the
fuel keeps the definition kernel-reducible). -/
def dedupFirstF [DecidableEq κ] : Nat → List κ → List κ
  | _, [] => []
  | 0, _ :: _ => []
  | n + 1, x :: xs => x :: dedupFirstF n (xs.filter (fun y => ¬ y = x))

/-- Keep the first occurrence of every value, drop later duplicates: the
key sequence of a pandas `groupby` over an already sorted index. -/
def dedupFirst [DecidableEq κ] (l : List κ) : List κ :=
  dedupFirstF l.length l

/-! ## The resampling engine (`resample_ohlcv`, app.py lines 29–76) -/

/-- `TF_MAP.get(timeframe, "1T")` (app.py lines 14–23) as a bucket length
in minutes.  (`"1D"` maps to the day rule; the code dispatches on the
string `'1D'` before ever using the rule, so that entry is unreachable in
the bucketed branch below.) -/
def TF_MAP (timeframe : String) : Nat :=
  if timeframe = "1m" then 1
  else if timeframe = "3m" then 3
  else if timeframe = "5m" then 5
  else if timeframe = "10m" then 10
  else if timeframe = "15m" then 15
  else if timeframe = "30m" then 30
  else if timeframe = "1h" then 60
  else if timeframe = "1D" then 1440
  else 1

/-- Lines 39–40: parse every `timestamp` with the fixed format; rows whose
timestamp coerces to NaT are dropped, the rest continue. -/
def parseStage (l : List Row) : List PCandle :=
  l.filterMap fun r =>
    (parseTs r.timestamp).map fun t =>
      ⟨t.1, t.2, r.op, r.high, r.low, r.close, r.volume⟩

/-- Line 43: `between_time("09:15", "15:30")`, inclusive on both ends. -/
def inSession (x : PCandle) : Bool :=
  SESSION_OPEN ≤ x.sod && x.sod ≤ SESSION_CLOSE

/-- Lines 39–43 combined: parse/drop, sort chronologically, restrict to
the trading session. -/
def prep (l : List Row) : List PCandle :=
  (sortOn tkey (parseStage l)).filter inSession

/-- Start of the bucket holding second-of-day `sod`, buckets of `L`
seconds aligned at the 09:15:00 origin
(`resample(rule, label="left", closed="left", origin='9:15:00')`). -/
def bstart (L : Nat) (sod : Nat) : Nat :=
  SESSION_OPEN + ((sod - SESSION_OPEN) / L) * L

/-- The bucket a candle falls into: its calendar day and its aligned
bucket start (buckets never span a day because the frame is grouped by
day, line 60, before resampling). -/
def bkey (L : Nat) (x : PCandle) : Nat × Nat := (x.dateKey, bstart L x.sod)

/-- `"open": "first"` of the aggregation dict (line 50). -/
def firstOp : List PCandle → Rat
  | [] => 0
  | x :: _ => x.op

/-- `"close": "last"` of the aggregation dict. -/
def lastClose : List PCandle → Rat
  | [] => 0
  | [x] => x.close
  | _ :: y :: ys => lastClose (y :: ys)

/-- `"high": "max"` of the aggregation dict. -/
def maxHigh : List PCandle → Rat
  | [] => 0
  | [x] => x.high
  | x :: y :: ys => max x.high (maxHigh (y :: ys))

/-- `"low": "min"` of the aggregation dict. -/
def minLow : List PCandle → Rat
  | [] => 0
  | [x] => x.low
  | x :: y :: ys => min x.low (minLow (y :: ys))

/-- `"volume": "sum"` of the aggregation dict. -/
def sumVolume : List PCandle → Int
  | [] => 0
  | x :: xs => x.volume + sumVolume xs

/-- The bar the aggregation dict produces for one bucket: label `(d, s)`
and first/max/min/last/sum over the bucket's candles in time order. -/
def aggBar (d s : Nat) (grp : List PCandle) : Bar :=
  ⟨d, s, firstOp grp, maxHigh grp, minLow grp, lastClose grp, sumVolume grp⟩

/-- Lines 63–67: one day's
`resample(rule, label="left", closed="left", origin='9:15:00').apply(agg)
.dropna(subset=['open','high','low','close'])`: after the `dropna` exactly
the occupied buckets remain, in ascending order — the first-occurrence
dedup of the (sorted) candles' bucket keys, each aggregated. -/
def resampleDay (L : Nat) (dl : List PCandle) : List Bar :=
  (dedupFirst (dl.map (bkey L))).map fun k =>
    aggBar k.1 k.2 (dl.filter fun x => bkey L x == k)

/-- Lines 59–76: group by calendar day (`groupby(df_slice.index.date)`,
keys ascending), resample each day with the 09:15-anchored rule, then
`pd.concat(parts).sort_index()`.  (`if not parts: return pd.DataFrame()`
and the `reset_index`/`strftime` formatting produce the same bar list.) -/
def bucketed (L : Nat) (p : List PCandle) : List Bar :=
  let parts := (dedupFirst (p.map (·.dateKey))).map fun d =>
    resampleDay L (p.filter fun x => x.dateKey == d)
  sortOn barTkey parts.flatten

/-- Lines 52–57: the `'1D'` branch — one bucket per calendar day over the
whole frame (`groupby(df_slice.index.date).agg(agg)`), each bar labelled
`"%Y-%m-%d 00:00:00"`, i.e. second-of-day 0. -/
def oneD (p : List PCandle) : List Bar :=
  (dedupFirst (p.map (·.dateKey))).map fun d =>
    aggBar d 0 (p.filter fun x => x.dateKey == d)

/-- Lines 45–48: the `'1m'` branch — the session-filtered candles
unchanged, only reformatted. -/
def oneMinute (p : List PCandle) : List Bar :=
  p.map fun x => ⟨x.dateKey, x.sod, x.op, x.high, x.low, x.close, x.volume⟩

/-- Lines 45–76: dispatch on the timeframe string after the common
preprocessing. -/
def emitBars (timeframe : String) (p : List PCandle) : List Bar :=
  if timeframe = "1m" then oneMinute p
  else if timeframe = "1D" then oneD p
  else bucketed (60 * TF_MAP timeframe) p

/-- `resample_ohlcv(df_slice, timeframe)` (app.py lines 29–76): empty in,
empty out (line 33); otherwise parse/drop/sort/session-filter the slice
and emit per the timeframe. -/
def resample_ohlcv (df_slice : List Row) (timeframe : String) : List Bar :=
  if df_slice = [] then []
  else emitBars timeframe (prep df_slice)

/-! ## The symbol extraction regex `(\d{5})(CE|PE)` (app.py lines 171, 190) -/

/-- Does the regex `(\d{5})(CE|PE)` match at the start of this character
list?  If so, the two capture groups. -/
def matchHere : List Char → Option (String × String)
  | a :: b :: c :: d :: e :: f :: g :: _ =>
    if isDigitCh a && isDigitCh b && isDigitCh c && isDigitCh d && isDigitCh e &&
       (f = 'C' || f = 'P') && g = 'E' then
      some (⟨[a, b, c, d, e]⟩, ⟨[f, g]⟩)
    else none
  | _ => none

/-- `re.search` semantics of `str.extract(r'(\d{5})(CE|PE)')`: the leftmost
match, scanning positions left to right. -/
def searchSym : List Char → Option (String × String)
  | [] => none
  | x :: xs => (matchHere (x :: xs)).orElse fun _ => searchSym xs

/-- `chunk['tradingsymbol'].str.extract(r'(\d{5})(CE|PE)')`: the derived
`(_strike_num, _opt_type)` columns, `none` for a non-matching symbol (the
extract yields NaN and the row never matches the filter). -/
def strikeOptOfSymbol (s : String) : Option (String × String) :=
  searchSym s.data

/-- Lines 173–176 / 192–195: a row matches the request when the extracted
strike equals `strike_str` and the extracted option type equals
`opt_type`. -/
def rowMatches (strike_str opt_type : String) (r : Row) : Bool :=
  match strikeOptOfSymbol r.tradingsymbol with
  | some (st, ot) => st == strike_str && ot == opt_type
  | none => false

/-! ## Python scalar coercions used by the orchestrator -/

/-- All-digits test for a nonempty character list. -/
def allDigits (l : List Char) : Bool := ¬ l = [] && l.all isDigitCh

/-- Digits to a number. -/
def natOfDigits : List Char → Nat
  | [] => 0
  | c :: cs => natOfDigits cs * 0 + natOfDigitsAux (c :: cs) 0
where
  natOfDigitsAux : List Char → Nat → Nat
    | [], acc => acc
    | c :: cs, acc => natOfDigitsAux cs (acc * 10 + digitVal c)

/-- Python `int(s)` on a decimal literal: optional surrounding whitespace,
optional sign, then digits; `none` models the `ValueError` that a
non-coercible string raises.  (Underscore digit grouping, an edge Python
accepts, is not modelled; no statement below touches it.) -/
def pyInt? (s : String) : Option Int :=
  match (s.data.dropWhile (· = ' ')).reverse.dropWhile (· = ' ') |>.reverse with
  | '-' :: ds => if allDigits ds then some (-(natOfDigits ds : Int)) else none
  | '+' :: ds => if allDigits ds then some (natOfDigits ds : Int) else none
  | ds => if allDigits ds then some (natOfDigits ds : Int) else none

/-- Split a character list at the first `'.'`, if any. -/
def splitAtDot (l : List Char) : List Char × Option (List Char) :=
  match l with
  | [] => ([], none)
  | '.' :: rest => ([], some rest)
  | c :: rest =>
    let (a, b) := splitAtDot rest
    (c :: a, b)

/-- The `float32` dtype coercion `pd.read_csv` applies to a numeric CSV
field: optional surrounding whitespace, optional sign, plain decimal
digits with an optional fractional part; `none` models the coercion
error.  (Exponent notation and `inf`/`nan` spellings are not modelled;
no statement below touches them.) -/
def pyFloat? (s : String) : Option Rat :=
  let core := (s.data.dropWhile (· = ' ')).reverse.dropWhile (· = ' ') |>.reverse
  let signed : Bool × List Char :=
    match core with
    | '-' :: ds => (true, ds)
    | '+' :: ds => (false, ds)
    | ds => (false, ds)
  let (intPart, fracPart) := splitAtDot signed.2
  let digitsOk :=
    match fracPart with
    | none => allDigits intPart
    | some fp => (intPart.all isDigitCh && fp.all isDigitCh) && ¬ (intPart = [] && fp = [])
  if digitsOk then
    let fp := fracPart.getD []
    let mag : Rat := mkRat (natOfDigits (intPart ++ fp) : Int) (10 ^ fp.length)
    some (if signed.1 then -mag else mag)
  else none

/-! ## Files, cache, request (app.py lines 117–227) -/

/-- One raw row of a CSV file before dtype coercion: every field is text. -/
structure CsvRow where
  timestamp : String
  tradingsymbol : String
  op : String
  high : String
  low : String
  close : String
  volume : String
deriving DecidableEq, Repr

/-- `pd.read_csv(..., dtype=DTYPES)` on one row: `tradingsymbol` stays a
string, prices coerce to `float32`, `volume` to `int32`; a field that
fails its coercion raises, which surfaces as `none`. -/
def parseCsvRow (r : CsvRow) : Option Row := do
  let o ← pyFloat? r.op
  let h ← pyFloat? r.high
  let l ← pyFloat? r.low
  let c ← pyFloat? r.close
  let v ← pyInt? r.volume
  pure ⟨r.timestamp, r.tradingsymbol, o, h, l, c, v⟩

/-- Lines 181–198: the whole chunked CSV read; a dtype error anywhere
aborts the read (`except` at line 202), hence `none` if any row fails. -/
def readCsv (rows : List CsvRow) : Option (List Row) :=
  rows.mapM parseCsvRow

/-- The files visible to the process: parquet files carry already typed
rows (the format stores types), CSV files carry text rows.  Keys are the
lowercased expiry (the code builds `nifty_data_{expiry.lower()}.csv` /
`.parquet`, lines 139–140). -/
structure Env where
  parquetFiles : List (String × List Row)
  csvFiles : List (String × List CsvRow)

/-- A request fingerprint: `(expiry, strike_str, opt_type, timeframe)`
(line 132). -/
abbrev CacheKey := String × String × String × String

/-- The L2 result cache `resample_cache = LRUCache(maxsize=200)` as an
association list from fingerprint to the stored record list. -/
abbrev Cache := List (CacheKey × List Bar)

/-- The query parameters of one `/get_chart` request; `none` is an absent
parameter. -/
structure Request where
  timeframe : Option String
  strike : Option String
  type : Option String
  expiry : Option String
deriving DecidableEq, Repr

/-- `str.upper()` / `str.lower()` on the ASCII data at hand, written over
the character list so that they are kernel-reducible (`String.toUpper` and
`String.toLower` recurse on byte positions, which the kernel cannot
unfold; the lemmas below identify the two forms). -/
def pyUpper (s : String) : String := ⟨s.data.map Char.toUpper⟩

/-- See `pyUpper`. -/
def pyLower (s : String) : String := ⟨s.data.map Char.toLower⟩

/-- Line 119: `request.args.get('timeframe', '1m')`. -/
def tfOf (req : Request) : String := req.timeframe.getD "1m"

/-- Line 121: `request.args.get('type', 'PE').upper()`. -/
def optTypeOf (req : Request) : String := pyUpper (req.type.getD "PE")

/-- The distinguishable outcomes of `get_chart`: the JSON record list, the
typed JSON errors with their status codes, and the uncaught `ValueError`
that `str(int(strike))` raises for a non-coercible strike (no handler
catches it, so Flask emits a stack-trace 500, not one of the handler's
typed errors). -/
inductive ChartResult where
  /-- 200: `jsonify(result_dict)`. -/
  | ok (bars : List Bar)
  /-- 400: `{"error": "Expiry parameter is required"}`. -/
  | errMissingExpiry
  /-- 400: `{"error": "Strike parameter required"}`. -/
  | errMissingStrike
  /-- Uncaught `ValueError` from `int(strike)` at line 129. -/
  | valueError
  /-- 404: `{"error": "File for expiry ... not found"}`. -/
  | errNotFound
  /-- 500: `{"error": "Error reading file: ..."}`. -/
  | errRead
  /-- 404: `{"error": "No data found for the given strike/type"}`. -/
  | errNoData
deriving DecidableEq, Repr

/-- Observable side work of one request: how many dataset files were
read and how many times the resampler ran. -/
structure Effects where
  fileReads : Nat
  resamples : Nat
deriving DecidableEq, Repr

/-- No file read, no aggregation. -/
def noEffects : Effects := ⟨0, 0⟩

/-- Lines 154–222 after a successful read: filter the rows chunk by chunk
(equal to one filter over the file), 404 if nothing matched, otherwise
resample, store the result in the cache under the fingerprint, return it. -/
def afterRead (resample_cache : Cache) (cache_key : CacheKey)
    (strike_str opt_type timeframe : String) (rows : List Row) :
    ChartResult × Cache × Effects :=
  let df_slice := rows.filter (rowMatches strike_str opt_type)
  if df_slice = [] then (.errNoData, resample_cache, ⟨1, 0⟩)
  else
    let result_dict := resample_ohlcv df_slice timeframe
    (.ok result_dict, (cache_key, result_dict) :: resample_cache, ⟨1, 1⟩)

/-- `get_chart` (app.py lines 117–227) over an explicit file system and
cache: parameter validation and normalization, the L2 cache fast path,
file selection (parquet preferred, then CSV, else 404), the filtered
read, resampling and the cache store.  Returns the response, the cache
after the request, and the observable effects. -/
def get_chart (env : Env) (resample_cache : Cache) (req : Request) :
    ChartResult × Cache × Effects :=
  let timeframe := tfOf req
  let opt_type := optTypeOf req
  match req.expiry with
  | none => (.errMissingExpiry, resample_cache, noEffects)
  | some expiry =>
    if expiry = "" then (.errMissingExpiry, resample_cache, noEffects)
    else match req.strike with
    | none => (.errMissingStrike, resample_cache, noEffects)
    | some strike =>
      if strike = "" then (.errMissingStrike, resample_cache, noEffects)
      else match pyInt? strike with
      | none => (.valueError, resample_cache, noEffects)
      | some n =>
        let strike_str := toString n
        let cache_key : CacheKey := (expiry, strike_str, opt_type, timeframe)
        match resample_cache.lookup cache_key with
        | some v => (.ok v, resample_cache, noEffects)
        | none =>
          match env.parquetFiles.lookup (pyLower expiry) with
          | some rows => afterRead resample_cache cache_key strike_str opt_type timeframe rows
          | none =>
            match env.csvFiles.lookup (pyLower expiry) with
            | some csvRows =>
              match readCsv csvRows with
              | none => (.errRead, resample_cache, ⟨1, 0⟩)
              | some rows => afterRead resample_cache cache_key strike_str opt_type timeframe rows
            | none => (.errNotFound, resample_cache, noEffects)

/-! ## Concrete inputs used by examples, witnesses and counterexamples -/

/-- Linearized order key of a bucket key `(dateKey, bucketStartSod)`. -/
def nkey (k : Nat × Nat) : Nat := k.1 * 86400 + k.2

/-- Is this raw row kept by the "session or unparsable" criterion?  A row
whose timestamp parses to a time outside 09:15:00–15:30:00 is exactly a
row `between_time` discards; unparsable rows are kept here (they are
dropped by the NaT `dropna`, not by the session window). -/
def keepSession (r : Row) : Bool :=
  match parseTs r.timestamp with
  | some t => SESSION_OPEN ≤ t.2 && t.2 ≤ SESSION_CLOSE
  | none => true

/-- 09:15 candle of the spec's worked example (close 100). -/
def exampleRow1 : Row :=
  ⟨"2024-11-04 09:15:00", "NIFTY04NOV2424700PE", 100, 100, 100, 100, 10⟩

/-- 09:16 candle of the spec's worked example (close 102). -/
def exampleRow2 : Row :=
  ⟨"2024-11-04 09:16:00", "NIFTY04NOV2424700PE", 102, 102, 102, 102, 10⟩

/-- 09:17 candle of the spec's worked example (close 101). -/
def exampleRow3 : Row :=
  ⟨"2024-11-04 09:17:00", "NIFTY04NOV2424700PE", 101, 101, 101, 101, 10⟩

/-- The spec's worked example slice: one day, 09:15/09:16/09:17, closes
100, 102, 101. -/
def exampleSlice : List Row := [exampleRow1, exampleRow2, exampleRow3]

/-- The candles the engine assigns to the bucket labelled by bar `b`:
the session-filtered, time-sorted candles of the slice on `b`'s calendar
day and — except at `1D`, where the bucket is the whole day — in the
09:15-aligned bucket starting at `b`'s timestamp. -/
def bucketCandles (timeframe : String) (df_slice : List Row) (b : Bar) :
    List PCandle :=
  if timeframe = "1D" then
    (prep df_slice).filter fun x => x.dateKey == b.tsDate
  else
    (prep df_slice).filter fun x =>
      bkey (60 * TF_MAP timeframe) x == (b.tsDate, b.tsSod)

/-- The dataset file of the C3/C7 witness environment: the worked example
slice under expiry key `04nov25` (parquet encoding). -/
def witnessEnv : Env := ⟨[("04nov25", exampleSlice)], []⟩

/-- The C3 witness request: `(expiry=04nov25, strike=24700, type=PE,
timeframe=3m)`. -/
def witnessReq : Request := ⟨some "3m", some "24700", some "PE", some "04nov25"⟩

/-- The C7 witness request: strike `99999` matches no row of the example
dataset (the spec's own `NoMatchingData` example). -/
def reqC7 : Request := ⟨some "3m", some "99999", some "PE", some "04nov25"⟩

/-- A healthy CSV row (matches strike 24700 PE). -/
def goodCsvRow : CsvRow :=
  ⟨"2024-11-04 09:15:00", "NIFTY04NOV2424700PE", "100", "100", "100", "100", "10"⟩

/-- An isolated malformed CSV row: `volume = "x"` fails the `int32`
dtype coercion. -/
def badCsvRow : CsvRow :=
  ⟨"2024-11-04 09:16:00", "NIFTY04NOV2424700PE", "102", "102", "102", "102", "x"⟩

/-- CSV dataset containing one good and one malformed row. -/
def envIsolatedBadRow : Env := ⟨[], [("04nov25", [goodCsvRow, badCsvRow])]⟩

/-- The same dataset with the malformed row removed. -/
def envWithoutBadRow : Env := ⟨[], [("04nov25", [goodCsvRow])]⟩

/-- The request used against the CSV environments. -/
def reqC9 : Request := ⟨some "1m", some "24700", some "PE", some "04nov25"⟩

/-! ## Derived facts -/

theorem string_toUpper_eq_pyUpper (s : String) : s.toUpper = pyUpper s := by
  show String.map Char.toUpper s = pyUpper s
  rw [String.map_eq]
  rfl

theorem string_toLower_eq_pyLower (s : String) : s.toLower = pyLower s := by
  show String.map Char.toLower s = pyLower s
  rw [String.map_eq]
  rfl

/-! ## List machinery lemmas -/

theorem dedupFirstF_eq_of_le {κ : Type} [DecidableEq κ] :
    ∀ (n m : Nat) (l : List κ), l.length ≤ n → l.length ≤ m →
      dedupFirstF n l = dedupFirstF m l := by
  intro n
  induction n with
  | zero =>
    intro m l hn _
    have : l = [] := List.eq_nil_of_length_eq_zero (Nat.le_zero.mp hn)
    subst this
    cases m <;> rfl
  | succ n ih =>
    intro m l hn hm
    match l with
    | [] => cases m <;> rfl
    | x :: xs =>
      match m with
      | 0 => simp at hm
      | m + 1 =>
        simp only [dedupFirstF]
        congr 1
        exact ih m _
          (le_trans (List.length_filter_le _ _) (Nat.le_of_succ_le_succ hn))
          (le_trans (List.length_filter_le _ _) (Nat.le_of_succ_le_succ hm))

theorem dedupFirst_nil {κ : Type} [DecidableEq κ] : dedupFirst ([] : List κ) = [] := rfl

theorem dedupFirst_cons {κ : Type} [DecidableEq κ] (x : κ) (xs : List κ) :
    dedupFirst (x :: xs) = x :: dedupFirst (xs.filter fun y => ¬ y = x) := by
  show dedupFirstF (xs.length + 1) (x :: xs) = _
  simp only [dedupFirstF]
  congr 1
  exact dedupFirstF_eq_of_le _ _ _ (List.length_filter_le _ _) le_rfl

/-- Strong induction on the length of a list. -/
theorem list_length_induction {α : Type} (P : List α → Prop)
    (ih : ∀ l : List α, (∀ m : List α, m.length < l.length → P m) → P l) :
    ∀ l : List α, P l := by
  intro l
  generalize hn : l.length = n
  induction n using Nat.strong_induction_on generalizing l with
  | _ n IH =>
    subst hn
    exact ih l fun m hm => IH _ hm m rfl

theorem length_filter_lt_cons {α : Type} (p : α → Bool) (x : α) (xs : List α) :
    (xs.filter p).length < (x :: xs).length :=
  Nat.lt_succ_of_le (List.length_filter_le _ _)

theorem mem_dedupFirst {κ : Type} [DecidableEq κ] (a : κ) :
    ∀ l : List κ, a ∈ dedupFirst l ↔ a ∈ l := by
  refine list_length_induction _ ?_
  intro l IH
  match l with
  | [] => simp [dedupFirst_nil]
  | x :: xs =>
    rw [dedupFirst_cons]
    simp only [List.mem_cons, IH _ (length_filter_lt_cons _ x xs), List.mem_filter]
    by_cases h : a = x <;> simp [h]

theorem dedupFirst_sublist {κ : Type} [DecidableEq κ] :
    ∀ l : List κ, List.Sublist (dedupFirst l) l := by
  refine list_length_induction _ ?_
  intro l IH
  match l with
  | [] => simp [dedupFirst_nil]
  | x :: xs =>
    rw [dedupFirst_cons]
    exact (IH _ (length_filter_lt_cons _ x xs)).trans (List.filter_sublist xs) |>.cons₂ x

theorem pairwise_ne_dedupFirst {κ : Type} [DecidableEq κ] :
    ∀ l : List κ, (dedupFirst l).Pairwise (fun a b => ¬ a = b) := by
  refine list_length_induction _ ?_
  intro l IH
  match l with
  | [] => simp [dedupFirst_nil]
  | x :: xs =>
    rw [dedupFirst_cons]
    refine List.Pairwise.cons ?_ (IH _ (length_filter_lt_cons _ x xs))
    intro b hb
    have : b ∈ xs.filter fun y => ¬ y = x := (mem_dedupFirst b _).mp hb
    have := (List.mem_filter.mp this).2
    simp at this
    exact fun h => this h.symm

theorem dedupFirst_eq_self {κ : Type} [DecidableEq κ] :
    ∀ l : List κ, l.Pairwise (fun a b => ¬ a = b) → dedupFirst l = l := by
  refine list_length_induction _ ?_
  intro l IH h
  match l with
  | [] => rfl
  | x :: xs =>
    rw [dedupFirst_cons]
    rw [List.pairwise_cons] at h
    have hfe : xs.filter (fun y => ¬ y = x) = xs := by
      refine List.filter_eq_self.mpr ?_
      intro b hb
      simp
      exact fun hbx => h.1 b hb hbx.symm
    rw [hfe]
    rw [IH xs (by simp) h.2]
theorem mem_insertOn {α : Type} (f : α → Nat) (x : α) :
    ∀ l : List α, ∀ a, a ∈ insertOn f x l ↔ a = x ∨ a ∈ l := by
  intro l
  induction l with
  | nil => simp [insertOn]
  | cons y ys ih =>
    intro a
    simp only [insertOn]
    by_cases h : f x ≤ f y
    · simp [h, List.mem_cons]
    · rw [if_neg h]
      simp only [List.mem_cons, ih a]
      tauto

theorem pairwise_insertOn {α : Type} (f : α → Nat) (x : α) :
    ∀ l : List α, l.Pairwise (fun a b => f a ≤ f b) →
      (insertOn f x l).Pairwise (fun a b => f a ≤ f b) := by
  intro l
  induction l with
  | nil => simp [insertOn]
  | cons y ys ih =>
    intro h
    rw [List.pairwise_cons] at h
    simp only [insertOn]
    by_cases hxy : f x ≤ f y
    · rw [if_pos hxy]
      refine List.Pairwise.cons ?_ (List.Pairwise.cons h.1 h.2)
      intro b hb
      rcases List.mem_cons.mp hb with hb | hb
      · exact hb ▸ hxy
      · exact hxy.trans (h.1 b hb)
    · rw [if_neg hxy]
      refine List.Pairwise.cons ?_ (ih h.2)
      intro b hb
      rcases (mem_insertOn f x ys b).mp hb with hb | hb
      · exact hb ▸ Nat.le_of_not_le hxy
      · exact h.1 b hb

theorem sortOn_pairwise {α : Type} (f : α → Nat) :
    ∀ l : List α, (sortOn f l).Pairwise (fun a b => f a ≤ f b) := by
  intro l
  induction l with
  | nil => simp [sortOn]
  | cons x xs ih => exact pairwise_insertOn f x _ ih

theorem insertOn_cons_of_le {α : Type} (f : α → Nat) (x : α) (l : List α)
    (h : ∀ b ∈ l, f x ≤ f b) : insertOn f x l = x :: l := by
  match l with
  | [] => rfl
  | y :: ys => simp only [insertOn, if_pos (h y (List.mem_cons_self y ys))]

theorem sortOn_eq_self {α : Type} (f : α → Nat) :
    ∀ l : List α, l.Pairwise (fun a b => f a ≤ f b) → sortOn f l = l := by
  intro l
  induction l with
  | nil => intro _; rfl
  | cons x xs ih =>
    intro h
    rw [List.pairwise_cons] at h
    simp only [sortOn, ih h.2]
    exact insertOn_cons_of_le f x xs h.1

theorem filter_insertOn {α : Type} (p : α → Bool) (f : α → Nat) (x : α) :
    ∀ l : List α, l.Pairwise (fun a b => f a ≤ f b) →
      (insertOn f x l).filter p =
        if p x then insertOn f x (l.filter p) else l.filter p := by
  intro l
  induction l with
  | nil =>
    intro _
    cases hp : p x <;> simp [insertOn, List.filter, hp]
  | cons y ys ih =>
    intro h
    rw [List.pairwise_cons] at h
    by_cases hxy : f x ≤ f y
    · simp only [insertOn, if_pos hxy]
      cases hp : p x with
      | true =>
        rw [List.filter_cons_of_pos hp, if_pos rfl]
        have hall : ∀ b ∈ (y :: ys).filter p, f x ≤ f b := by
          intro b hb
          rcases List.mem_cons.mp (List.mem_of_mem_filter hb) with hb' | hb'
          · exact hb' ▸ hxy
          · exact hxy.trans (h.1 b hb')
        rw [insertOn_cons_of_le f x _ hall]
      | false =>
        rw [List.filter_cons_of_neg (by simp [hp]), if_neg (by simp)]
    · simp only [insertOn, if_neg hxy]
      cases hp : p y with
      | true =>
        rw [List.filter_cons_of_pos hp, List.filter_cons_of_pos hp, ih h.2]
        cases hpx : p x with
        | true =>
          rw [if_pos rfl, if_pos rfl]
          simp [insertOn, hxy]
        | false => rw [if_neg (by simp), if_neg (by simp)]
      | false =>
        rw [List.filter_cons_of_neg (by simp [hp]),
          List.filter_cons_of_neg (by simp [hp]), ih h.2]

theorem sortOn_filter {α : Type} (p : α → Bool) (f : α → Nat) :
    ∀ l : List α, sortOn f (l.filter p) = (sortOn f l).filter p := by
  intro l
  induction l with
  | nil => rfl
  | cons x xs ih =>
    simp only [sortOn]
    cases hp : p x with
    | true =>
      rw [List.filter_cons_of_pos hp]
      simp only [sortOn, ih]
      rw [filter_insertOn p f x _ (sortOn_pairwise f xs), if_pos hp]
    | false =>
      rw [List.filter_cons_of_neg (by simp [hp]), ih,
        filter_insertOn p f x _ (sortOn_pairwise f xs), if_neg (by simp [hp])]

theorem filter_map_comm {α β : Type} (g : α → β) (p : β → Bool) :
    ∀ l : List α, (l.map g).filter p = (l.filter fun a => p (g a)).map g := by
  intro l
  induction l with
  | nil => rfl
  | cons x xs ih =>
    simp only [List.map_cons, List.filter_cons]
    cases hp : p (g x) <;> simp [hp, ih]

theorem filter_filter_comm {α : Type} (p q : α → Bool) (l : List α) :
    (l.filter p).filter q = (l.filter q).filter p := by
  simp only [List.filter_filter]
  exact List.filter_congr fun a _ => by cases p a <;> cases q a <;> rfl

theorem dedupFirst_filter {κ : Type} [DecidableEq κ] (q : κ → Bool) :
    ∀ l : List κ, dedupFirst (l.filter q) = (dedupFirst l).filter q := by
  refine list_length_induction _ ?_
  intro l IH
  match l with
  | [] => rfl
  | x :: xs =>
    rw [dedupFirst_cons]
    cases hq : q x with
    | true =>
      rw [List.filter_cons_of_pos hq, dedupFirst_cons,
        List.filter_cons_of_pos hq]
      congr 1
      rw [filter_filter_comm, IH _ (length_filter_lt_cons _ x xs)]
    | false =>
      rw [List.filter_cons_of_neg (by simp [hq]),
        List.filter_cons_of_neg (by simp [hq])]
      have hfe : (xs.filter fun y => ¬ y = x).filter q = xs.filter q := by
        rw [filter_filter_comm]
        refine List.filter_eq_self.mpr ?_
        intro b hb
        have hbq := (List.mem_filter.mp hb).2
        simp only [decide_eq_true_eq]
        intro hbx
        rw [hbx, hq] at hbq
        exact Bool.noConfusion hbq
      rw [← IH _ (length_filter_lt_cons _ x xs), hfe]

theorem dedupFirst_map_dedupFirst {κ κ' : Type} [DecidableEq κ] [DecidableEq κ']
    (f : κ → κ') :
    ∀ l : List κ, dedupFirst ((dedupFirst l).map f) = dedupFirst (l.map f) := by
  refine list_length_induction _ ?_
  intro l IH
  match l with
  | [] => rfl
  | x :: xs =>
    rw [dedupFirst_cons, List.map_cons, dedupFirst_cons, List.map_cons,
      dedupFirst_cons]
    congr 1
    rw [filter_map_comm, ← dedupFirst_filter]
    have hcomb :
        ((xs.filter fun y => ¬ y = x).filter fun a => ¬ f a = f x) =
          xs.filter fun a => ¬ f a = f x := by
      rw [filter_filter_comm]
      refine List.filter_eq_self.mpr ?_
      intro b hb
      have hbf := (List.mem_filter.mp hb).2
      simp only [decide_eq_true_eq] at hbf ⊢
      intro hbx
      exact hbf (by rw [hbx])
    rw [hcomb]
    have hlen : (xs.filter fun a => ¬ f a = f x).length < (x :: xs).length :=
      length_filter_lt_cons _ x xs
    rw [IH _ hlen, filter_map_comm]

theorem flatten_map_map {α β : Type} (g : α → β) :
    ∀ L : List (List α), (L.map (List.map g)).flatten = L.flatten.map g := by
  intro L
  induction L with
  | nil => rfl
  | cons h t ih =>
    rw [List.map_cons, List.flatten_cons, List.flatten_cons,
      List.map_append, ih]

theorem filter_append_filter_not {α : Type} (p : α → Bool) :
    ∀ l : List α, l.Pairwise (fun a b => p b = true → p a = true) →
      l.filter p ++ l.filter (fun a => ¬ p a = true) = l := by
  intro l
  induction l with
  | nil => intro _; rfl
  | cons x xs ih =>
    intro h
    rw [List.pairwise_cons] at h
    cases hp : p x with
    | true =>
      rw [List.filter_cons_of_pos hp, List.filter_cons_of_neg (by simp [hp]),
        List.cons_append, ih h.2]
    | false =>
      rw [List.filter_cons_of_neg (by simp [hp]),
        List.filter_cons_of_pos (by simp [hp])]
      have hall : ∀ a ∈ xs, ¬ p a = true := by
        intro a ha hpa
        have := h.1 a ha hpa
        rw [hp] at this
        exact Bool.noConfusion this
      have h1 : xs.filter p = [] := List.filter_eq_nil_iff.mpr hall
      have h2 : xs.filter (fun a => ¬ p a = true) = xs :=
        List.filter_eq_self.mpr (by intro a ha; simpa using hall a ha)
      rw [h1, h2, List.nil_append]

/-- Splitting a fst-sorted key list by its distinct first components and
concatenating the groups recovers the list (the `groupby`/`concat`
round-trip). -/
theorem partition_flatten :
    ∀ K : List (Nat × Nat), K.Pairwise (fun a b => a.1 ≤ b.1) →
      ((dedupFirst (K.map Prod.fst)).map fun d =>
          K.filter fun k => k.1 == d).flatten = K := by
  refine list_length_induction _ ?_
  intro K IH hK
  match K with
  | [] => rfl
  | k :: K' =>
    rw [List.pairwise_cons] at hK
    rw [List.map_cons, dedupFirst_cons, List.map_cons, List.flatten_cons]
    have hhead : ((k :: K').filter fun j => j.1 == k.1) =
        k :: K'.filter (fun j => j.1 == k.1) :=
      List.filter_cons_of_pos (by simp)
    have htailkeys : ((K'.map Prod.fst).filter fun y => ¬ y = k.1) =
        (K'.filter fun j => ¬ j.1 = k.1).map Prod.fst := by
      rw [filter_map_comm]
    have htail :
        ((dedupFirst ((K'.map Prod.fst).filter fun y => ¬ y = k.1)).map fun d =>
            (k :: K').filter fun j => j.1 == d).flatten =
          K'.filter fun j => ¬ j.1 = k.1 := by
      rw [htailkeys]
      have hmapcongr :
          ((dedupFirst ((K'.filter fun j => ¬ j.1 = k.1).map Prod.fst)).map fun d =>
              (k :: K').filter fun j => j.1 == d) =
            (dedupFirst ((K'.filter fun j => ¬ j.1 = k.1).map Prod.fst)).map fun d =>
              (K'.filter fun j => ¬ j.1 = k.1).filter fun j => j.1 == d := by
        refine List.map_congr_left ?_
        intro d hd
        have hd' : d ∈ (K'.filter fun j => ¬ j.1 = k.1).map Prod.fst :=
          (mem_dedupFirst d _).mp hd
        obtain ⟨j, hj, hjd⟩ := List.mem_map.mp hd'
        have hjne : ¬ j.1 = k.1 := by
          have := (List.mem_filter.mp hj).2
          exact of_decide_eq_true this
        have hdne : ¬ d = k.1 := by rw [← hjd]; exact hjne
        rw [List.filter_cons_of_neg (by simpa using fun h => hdne h.symm)]
        rw [List.filter_filter]
        refine (List.filter_congr ?_).symm
        intro a _
        by_cases h : a.1 = d
        · have hane : ¬ a.1 = k.1 := by rw [h]; exact hdne
          simp only [h, hane, decide_eq_true_eq]
          simp [hdne]
        · simp [h]
      rw [hmapcongr]
      refine IH _ ?_ ?_
      · exact Nat.lt_succ_of_le (List.length_filter_le _ _)
      · exact List.Pairwise.filter _ hK.2
    rw [hhead, htail, List.cons_append]
    congr 1
    have hfe : (K'.filter fun j => ¬ j.1 = k.1) =
        K'.filter fun a => ¬ (a.1 == k.1) = true :=
      List.filter_congr fun a _ => by by_cases h : a.1 = k.1 <;> simp [h]
    rw [hfe]
    refine filter_append_filter_not (fun j => j.1 == k.1) K' ?_
    refine List.Pairwise.imp_of_mem ?_ hK.2
    intro a b ha _ hab hb
    have hka : k.1 ≤ a.1 := hK.1 a ha
    have hbk : b.1 = k.1 := by simpa using hb
    simp only [beq_iff_eq]
    omega

/-! ## Arithmetic facts about session buckets and sort keys -/

theorem TF_MAP_pos (timeframe : String) : 0 < TF_MAP timeframe := by
  unfold TF_MAP
  split <;> try norm_num
  split <;> try norm_num
  split <;> try norm_num
  split <;> try norm_num
  split <;> try norm_num
  split <;> try norm_num
  split <;> try norm_num
  split <;> norm_num

theorem bstart_ge (L sod : Nat) : SESSION_OPEN ≤ bstart L sod :=
  Nat.le_add_right _ _

theorem bstart_le_of_ge (L : Nat) {sod : Nat} (h : SESSION_OPEN ≤ sod) :
    bstart L sod ≤ sod := by
  unfold bstart
  have h1 : (sod - SESSION_OPEN) / L * L ≤ sod - SESSION_OPEN :=
    Nat.div_mul_le_self _ _
  omega

theorem bstart_le_close (L : Nat) {sod : Nat} (h : sod ≤ SESSION_CLOSE) :
    bstart L sod ≤ SESSION_CLOSE := by
  rcases le_or_lt SESSION_OPEN sod with hge | hlt
  · exact (bstart_le_of_ge L hge).trans h
  · unfold bstart
    have : sod - SESSION_OPEN = 0 := Nat.sub_eq_zero_of_le (Nat.le_of_lt hlt)
    rw [this]
    simp [SESSION_OPEN, SESSION_CLOSE]

theorem bstart_mono (L : Nat) {s1 s2 : Nat} (h : s1 ≤ s2) :
    bstart L s1 ≤ bstart L s2 := by
  unfold bstart
  have h1 : s1 - SESSION_OPEN ≤ s2 - SESSION_OPEN := Nat.sub_le_sub_right h _
  have h2 : (s1 - SESSION_OPEN) / L ≤ (s2 - SESSION_OPEN) / L :=
    Nat.div_le_div_right h1
  exact Nat.add_le_add_left (Nat.mul_le_mul_right L h2) _

theorem day_sod_le_cases {a b c d : Nat} (hb : b < 86400) (hd : d < 86400)
    (h : a * 86400 + b ≤ c * 86400 + d) : a < c ∨ (a = c ∧ b ≤ d) := by
  omega

theorem day_sod_inj {a b c d : Nat} (hb : b < 86400) (hd : d < 86400)
    (h : a * 86400 + b = c * 86400 + d) : a = c ∧ b = d := by
  omega

theorem session_close_lt : SESSION_CLOSE < 86400 := by norm_num [SESSION_CLOSE]

/-! ## Facts about the preprocessing pipeline -/

theorem prep_pairwise (l : List Row) :
    (prep l).Pairwise fun a b => tkey a ≤ tkey b :=
  (sortOn_pairwise tkey _).filter _

theorem mem_prep_session {l : List Row} {x : PCandle} (hx : x ∈ prep l) :
    SESSION_OPEN ≤ x.sod ∧ x.sod ≤ SESSION_CLOSE := by
  have := (List.mem_filter.mp hx).2
  simpa [inSession] using this

theorem nkey_bkey_le {L : Nat} {x y : PCandle}
    (hx : x.sod ≤ SESSION_CLOSE) (hy : y.sod ≤ SESSION_CLOSE)
    (h : tkey x ≤ tkey y) : nkey (bkey L x) ≤ nkey (bkey L y) := by
  have hx' : x.sod < 86400 := lt_of_le_of_lt hx session_close_lt
  have hy' : y.sod < 86400 := lt_of_le_of_lt hy session_close_lt
  have hbx : bstart L x.sod ≤ SESSION_CLOSE := bstart_le_close L hx
  have hby : bstart L y.sod ≤ SESSION_CLOSE := bstart_le_close L hy
  rcases day_sod_le_cases hx' hy' h with hlt | ⟨heq, hle⟩
  · unfold nkey bkey
    simp only
    have := session_close_lt
    omega
  · unfold nkey bkey
    simp only
    have := bstart_mono L hle
    omega

theorem mem_K_snd_le {L : Nat} {p : List PCandle}
    (hs : ∀ x ∈ p, x.sod ≤ SESSION_CLOSE) {k : Nat × Nat}
    (hk : k ∈ dedupFirst (p.map (bkey L))) : k.2 ≤ SESSION_CLOSE := by
  have hk' : k ∈ p.map (bkey L) := (mem_dedupFirst k _).mp hk
  obtain ⟨x, hxp, hxk⟩ := List.mem_map.mp hk'
  rw [← hxk]
  exact bstart_le_close L (hs x hxp)

theorem K_pairwise_lt (L : Nat) (p : List PCandle)
    (hs : ∀ x ∈ p, x.sod ≤ SESSION_CLOSE)
    (hp : p.Pairwise fun a b => tkey a ≤ tkey b) :
    (dedupFirst (p.map (bkey L))).Pairwise fun a b => nkey a < nkey b := by
  have hmaple : (p.map (bkey L)).Pairwise fun a b => nkey a ≤ nkey b := by
    rw [List.pairwise_map]
    refine List.Pairwise.imp_of_mem ?_ hp
    intro a b ha hb hab
    exact nkey_bkey_le (hs a ha) (hs b hb) hab
  have hle : (dedupFirst (p.map (bkey L))).Pairwise fun a b => nkey a ≤ nkey b :=
    hmaple.sublist (dedupFirst_sublist _)
  have hne := pairwise_ne_dedupFirst (p.map (bkey L))
  refine List.Pairwise.imp_of_mem ?_ (hle.and hne)
  intro a b ha hb hab
  have ha2 : a.2 ≤ SESSION_CLOSE := mem_K_snd_le hs ha
  have hb2 : b.2 ≤ SESSION_CLOSE := mem_K_snd_le hs hb
  rcases Nat.lt_or_ge (nkey a) (nkey b) with hlt | hge
  · exact hlt
  · exfalso
    have heq : nkey a = nkey b := Nat.le_antisymm hab.1 hge
    have := day_sod_inj (lt_of_le_of_lt ha2 session_close_lt)
      (lt_of_le_of_lt hb2 session_close_lt) heq
    exact hab.2 (Prod.ext this.1 this.2)

/-- A sorted key list's first components are weakly ascending. -/
theorem K_pairwise_fst_le (L : Nat) (p : List PCandle)
    (hs : ∀ x ∈ p, x.sod ≤ SESSION_CLOSE)
    (hp : p.Pairwise fun a b => tkey a ≤ tkey b) :
    (dedupFirst (p.map (bkey L))).Pairwise fun a b => a.1 ≤ b.1 := by
  refine List.Pairwise.imp_of_mem ?_ (K_pairwise_lt L p hs hp)
  intro a b ha hb hab
  have ha2 : a.2 ≤ SESSION_CLOSE := mem_K_snd_le hs ha
  have hb2 : b.2 ≤ SESSION_CLOSE := mem_K_snd_le hs hb
  have := session_close_lt
  unfold nkey at hab
  omega

/-- One day's resample, rewritten over the whole frame's bucket keys. -/
theorem resampleDay_eq (L : Nat) (p : List PCandle) (d : Nat) :
    resampleDay L (p.filter fun x => x.dateKey == d) =
      ((dedupFirst (p.map (bkey L))).filter fun k => k.1 == d).map fun k =>
        aggBar k.1 k.2 (p.filter fun x => bkey L x == k) := by
  unfold resampleDay
  have hkeys : ((p.filter fun x => x.dateKey == d).map (bkey L)) =
      (p.map (bkey L)).filter fun k => k.1 == d := by
    rw [filter_map_comm]
    exact congrArg (List.map (bkey L)) (List.filter_congr fun x _ => rfl)
  rw [hkeys, dedupFirst_filter]
  refine List.map_congr_left ?_
  intro k hk
  have hkd : k.1 = d := by
    have := (List.mem_filter.mp hk).2
    simpa using this
  congr 1
  rw [List.filter_filter]
  refine List.filter_congr ?_
  intro x _
  cases hxk : (bkey L x == k) with
  | true =>
    have : x.dateKey = d := by
      have hbe : bkey L x = k := by simpa using hxk
      rw [← hkd, ← hbe]
      rfl
    simp [this]
  | false => simp

/-- The central characterization of the bucketed path: grouping by day,
resampling each day and re-concatenating equals mapping the aggregation
over the (sorted, distinct) occupied bucket keys of the whole frame. -/
theorem bucketed_flat (L : Nat) (p : List PCandle)
    (hs : ∀ x ∈ p, x.sod ≤ SESSION_CLOSE)
    (hp : p.Pairwise fun a b => tkey a ≤ tkey b) :
    bucketed L p =
      (dedupFirst (p.map (bkey L))).map fun k =>
        aggBar k.1 k.2 (p.filter fun x => bkey L x == k) := by
  rw [show bucketed L p = sortOn barTkey
      ((dedupFirst (p.map (·.dateKey))).map fun d =>
        resampleDay L (p.filter fun x => x.dateKey == d)).flatten from rfl]
  have hdays : dedupFirst (p.map (·.dateKey)) =
      dedupFirst ((dedupFirst (p.map (bkey L))).map Prod.fst) := by
    rw [dedupFirst_map_dedupFirst, List.map_map]
    rfl
  have hparts : (dedupFirst (p.map (·.dateKey))).map
        (fun d => resampleDay L (p.filter fun x => x.dateKey == d)) =
      ((dedupFirst ((dedupFirst (p.map (bkey L))).map Prod.fst)).map fun d =>
          (dedupFirst (p.map (bkey L))).filter fun k => k.1 == d).map
        (List.map fun k => aggBar k.1 k.2 (p.filter fun x => bkey L x == k)) := by
    rw [hdays, List.map_map]
    refine List.map_congr_left ?_
    intro d _
    exact resampleDay_eq L p d
  rw [hparts, flatten_map_map, partition_flatten _ (K_pairwise_fst_le L p hs hp)]
  refine sortOn_eq_self _ _ ?_
  rw [List.pairwise_map]
  refine List.Pairwise.imp_of_mem ?_ (K_pairwise_lt L p hs hp)
  intro a b _ _ hab
  show barTkey (aggBar a.1 a.2 _) ≤ barTkey (aggBar b.1 b.2 _)
  unfold nkey at hab
  unfold barTkey aggBar
  simp only
  omega

/-! ## Resampling path lemmas -/

theorem oneMinute_nil : oneMinute [] = [] := rfl

theorem emitBars_nil (timeframe : String) : emitBars timeframe [] = [] := by
  unfold emitBars oneMinute oneD bucketed resampleDay
  split_ifs <;> rfl

theorem resample_bucketed_eq (timeframe : String) (df_slice : List Row)
    (h1 : ¬ timeframe = "1m") (h2 : ¬ timeframe = "1D")
    (h3 : ¬ df_slice = []) :
    resample_ohlcv df_slice timeframe =
      (dedupFirst ((prep df_slice).map (bkey (60 * TF_MAP timeframe)))).map
        fun k => aggBar k.1 k.2
          ((prep df_slice).filter fun x => bkey (60 * TF_MAP timeframe) x == k) := by
  unfold resample_ohlcv
  rw [if_neg h3]
  unfold emitBars
  rw [if_neg h1, if_neg h2]
  exact bucketed_flat _ _ (fun x hx => (mem_prep_session hx).2) (prep_pairwise df_slice)

theorem resample_oneMinute_eq (df_slice : List Row) (h3 : ¬ df_slice = []) :
    resample_ohlcv df_slice "1m" = oneMinute (prep df_slice) := by
  unfold resample_ohlcv
  rw [if_neg h3]
  rfl

theorem resample_oneD_eq (df_slice : List Row) (h3 : ¬ df_slice = []) :
    resample_ohlcv df_slice "1D" = oneD (prep df_slice) := by
  unfold resample_ohlcv
  rw [if_neg h3]
  rfl

theorem filter_ne_nil_of_mem {α : Type} {p : α → Bool} {l : List α} {x : α}
    (hx : x ∈ l) (hpx : p x = true) : ¬ l.filter p = [] := by
  intro hnil
  have : x ∈ l.filter p := List.mem_filter.mpr ⟨hx, hpx⟩
  rw [hnil] at this
  exact List.not_mem_nil x this

/-! ## Row-level drop/skip lemmas (lines 39–43) -/

theorem prep_eq_of_parseStage_eq {l1 l2 : List Row}
    (h : parseStage l1 = parseStage l2) : prep l1 = prep l2 := by
  unfold prep
  rw [h]

theorem parseStage_filter_isSome (l : List Row) :
    parseStage (l.filter fun r => (parseTs r.timestamp).isSome) = parseStage l := by
  induction l with
  | nil => rfl
  | cons r rest ih =>
    cases h : parseTs r.timestamp with
    | none =>
      rw [List.filter_cons_of_neg (by simp [h])]
      rw [ih]
      unfold parseStage
      rw [List.filterMap_cons]
      simp [h]
    | some t =>
      rw [List.filter_cons_of_pos (by simp [h])]
      unfold parseStage
      rw [List.filterMap_cons, List.filterMap_cons]
      simp only [h, Option.map_some]
      unfold parseStage at ih
      rw [ih]

theorem parseStage_filter_keepSession (l : List Row) :
    parseStage (l.filter keepSession) = (parseStage l).filter inSession := by
  induction l with
  | nil => rfl
  | cons r rest ih =>
    unfold parseStage at ih ⊢
    cases h : parseTs r.timestamp with
    | none =>
      rw [List.filter_cons_of_pos (by simp [keepSession, h])]
      simp only [List.filterMap_cons, h, Option.map_none]
      exact ih
    | some t =>
      by_cases hs : (SESSION_OPEN ≤ t.2 && t.2 ≤ SESSION_CLOSE) = true
      · rw [List.filter_cons_of_pos (by simp only [keepSession, h]; exact hs)]
        simp only [List.filterMap_cons, h, Option.map]
        rw [List.filter_cons_of_pos
          (show inSession ⟨t.1, t.2, r.op, r.high, r.low, r.close, r.volume⟩ = true from hs)]
        simp only [Option.map] at ih
        rw [ih]
      · rw [List.filter_cons_of_neg (by simp only [keepSession, h]; exact hs)]
        simp only [List.filterMap_cons, h, Option.map]
        rw [List.filter_cons_of_neg
          (show ¬ inSession ⟨t.1, t.2, r.op, r.high, r.low, r.close, r.volume⟩ = true from hs)]
        simp only [Option.map] at ih
        rw [ih]

theorem filter_idem {α : Type} (p : α → Bool) (l : List α) :
    (l.filter p).filter p = l.filter p := by
  rw [List.filter_filter]
  exact List.filter_congr fun a _ => by cases p a <;> rfl

theorem prep_filter_keepSession (l : List Row) :
    prep (l.filter keepSession) = prep l := by
  unfold prep
  rw [parseStage_filter_keepSession, sortOn_filter, filter_idem]

theorem resample_eq_of_prep_eq {l1 l2 : List Row} (timeframe : String)
    (h : prep l1 = prep l2) :
    (¬ l1 = []) → (¬ l2 = []) →
      resample_ohlcv l1 timeframe = resample_ohlcv l2 timeframe := by
  intro h1 h2
  unfold resample_ohlcv
  rw [if_neg h1, if_neg h2, h]

theorem prep_nil_iff_parseStage (l : List Row) :
    parseStage l = [] → prep l = [] := by
  intro h
  unfold prep
  rw [h]
  rfl

theorem resample_of_prep_nil {l : List Row} (timeframe : String)
    (h : prep l = []) : resample_ohlcv l timeframe = [] := by
  unfold resample_ohlcv
  split
  · rfl
  · rw [h]
    exact emitBars_nil timeframe

/-! ## C1 -/

/-- **C1.** Every bar emitted by a bucketing timeframe (every timeframe
except `1m`, which emits candles unchanged and creates no buckets)
aggregates a non-empty bucket with open = first candle's open, close =
last candle's close, high = max, low = min, volume = sum over the
bucket's candles in time order; and the spec's worked example (three
candles at 09:15/09:16/09:17 with closes 100/102/101, timeframe `3m`)
yields exactly one bar at 09:15:00 with open 100, high 102, low 100,
close 101. -/
theorem c1_bucket_aggregation :
    (∀ (timeframe : String) (df_slice : List Row) (b : Bar),
        ¬ timeframe = "1m" → b ∈ resample_ohlcv df_slice timeframe →
          ¬ bucketCandles timeframe df_slice b = [] ∧
          b.op = firstOp (bucketCandles timeframe df_slice b) ∧
          b.high = maxHigh (bucketCandles timeframe df_slice b) ∧
          b.low = minLow (bucketCandles timeframe df_slice b) ∧
          b.close = lastClose (bucketCandles timeframe df_slice b) ∧
          b.volume = sumVolume (bucketCandles timeframe df_slice b)) ∧
    resample_ohlcv exampleSlice "3m" = [⟨20241104, 33300, 100, 102, 100, 101, 30⟩] := by
  constructor
  · intro timeframe df_slice b htf hb
    by_cases hnil : df_slice = []
    · rw [hnil] at hb
      simp [resample_ohlcv] at hb
    by_cases h1D : timeframe = "1D"
    · subst h1D
      rw [resample_oneD_eq df_slice hnil] at hb
      unfold oneD at hb
      obtain ⟨d, hd, rfl⟩ := List.mem_map.mp hb
      have hdm : d ∈ (prep df_slice).map (·.dateKey) := (mem_dedupFirst d _).mp hd
      obtain ⟨x, hx, hxd⟩ := List.mem_map.mp hdm
      unfold bucketCandles
      rw [if_pos rfl]
      refine ⟨?_, rfl, rfl, rfl, rfl, rfl⟩
      exact filter_ne_nil_of_mem hx (by simp [hxd, aggBar])
    · rw [resample_bucketed_eq timeframe df_slice htf h1D hnil] at hb
      obtain ⟨k, hk, rfl⟩ := List.mem_map.mp hb
      have hkm : k ∈ (prep df_slice).map (bkey (60 * TF_MAP timeframe)) :=
        (mem_dedupFirst k _).mp hk
      obtain ⟨x, hx, hxk⟩ := List.mem_map.mp hkm
      unfold bucketCandles
      rw [if_neg h1D]
      refine ⟨?_, rfl, rfl, rfl, rfl, rfl⟩
      exact filter_ne_nil_of_mem hx (by simp [hxk, aggBar])
  · rfl

/-! ## C2 -/

/-- **C2 counterexample.** At timeframe `1D` the code labels bars
`"%Y-%m-%d 00:00:00"` (app.py line 56): one in-session candle yields a
bar timestamped midnight, which is outside 09:15:00–15:30:00 — so the
claim's "at any requested timeframe" fails at `1D`. -/
theorem c2_counterexample :
    resample_ohlcv [exampleRow1] "1D" = [⟨20241104, 0, 100, 100, 100, 100, 10⟩] ∧
    ¬ SESSION_OPEN ≤ (0 : Nat) := by
  constructor
  · rfl
  · decide

/-- **C2 (amended).** At every timeframe other than `1D`, each emitted
bar's timestamp lies within 09:15:00–15:30:00 on its calendar day; `1D`
bars are labelled 00:00:00 of their day; and every input candle whose
timestamp parses to a time outside the session window is discarded
before aggregation (removing those rows first leaves the output
unchanged). -/
theorem c2_session_window :
    (∀ (timeframe : String) (df_slice : List Row) (b : Bar),
        ¬ timeframe = "1D" → b ∈ resample_ohlcv df_slice timeframe →
          SESSION_OPEN ≤ b.tsSod ∧ b.tsSod ≤ SESSION_CLOSE) ∧
    (∀ (df_slice : List Row) (b : Bar),
        b ∈ resample_ohlcv df_slice "1D" → b.tsSod = 0) ∧
    (∀ (timeframe : String) (df_slice : List Row),
        resample_ohlcv df_slice timeframe =
          resample_ohlcv (df_slice.filter keepSession) timeframe) := by
  refine ⟨?_, ?_, ?_⟩
  · intro timeframe df_slice b h1D hb
    by_cases hnil : df_slice = []
    · rw [hnil] at hb
      simp [resample_ohlcv] at hb
    by_cases h1m : timeframe = "1m"
    · subst h1m
      rw [resample_oneMinute_eq df_slice hnil] at hb
      unfold oneMinute at hb
      obtain ⟨x, hx, rfl⟩ := List.mem_map.mp hb
      exact mem_prep_session hx
    · rw [resample_bucketed_eq timeframe df_slice h1m h1D hnil] at hb
      obtain ⟨k, hk, rfl⟩ := List.mem_map.mp hb
      have hkm : k ∈ (prep df_slice).map (bkey (60 * TF_MAP timeframe)) :=
        (mem_dedupFirst k _).mp hk
      obtain ⟨x, hx, hxk⟩ := List.mem_map.mp hkm
      have hses := mem_prep_session hx
      show SESSION_OPEN ≤ k.2 ∧ k.2 ≤ SESSION_CLOSE
      rw [← hxk]
      exact ⟨bstart_ge _ _, bstart_le_close _ hses.2⟩
  · intro df_slice b hb
    by_cases hnil : df_slice = []
    · rw [hnil] at hb
      simp [resample_ohlcv] at hb
    rw [resample_oneD_eq df_slice hnil] at hb
    unfold oneD at hb
    obtain ⟨d, _, rfl⟩ := List.mem_map.mp hb
    rfl
  · intro timeframe df_slice
    by_cases h1 : df_slice = []
    · rw [h1]
      rfl
    by_cases h2 : df_slice.filter keepSession = []
    · have hprep : prep df_slice = [] := by
        rw [← prep_filter_keepSession df_slice, h2]
        rfl
      rw [resample_of_prep_nil timeframe hprep, h2]
      rfl
    · exact resample_eq_of_prep_eq timeframe
        (prep_filter_keepSession df_slice).symm h1 h2

/-! ## C5 -/

/-- **C5 counterexample.** Two candles with the same timestamp (the spec
says duplicates are an unenforced caller precondition) pass through the
`1m` path unchanged: the output has two bars with equal timestamps, so
the output is not strictly ascending for every non-empty slice. -/
theorem c5_counterexample :
    ¬ (resample_ohlcv [exampleRow1, exampleRow1] "1m").Pairwise
        (fun a b => barTkey a < barTkey b) := by
  intro h
  rw [show resample_ohlcv [exampleRow1, exampleRow1] "1m" =
      [⟨20241104, 33300, 100, 100, 100, 100, 10⟩,
       ⟨20241104, 33300, 100, 100, 100, 100, 10⟩] from rfl] at h
  rw [List.pairwise_cons] at h
  exact absurd (h.1 _ (List.mem_cons_self _ _)) (lt_irrefl _)

/-- **C5 (amended).** Under the spec's stated precondition — at most one
candle per timestamp, formalized as pairwise-distinct sort keys of the
prepared slice — the emitted bar sequence is strictly ascending by
timestamp (hence duplicate-free) at every timeframe. -/
theorem c5_strictly_ascending (timeframe : String) (df_slice : List Row)
    (hdist : (prep df_slice).Pairwise fun a b => ¬ tkey a = tkey b) :
    (resample_ohlcv df_slice timeframe).Pairwise
      fun a b => barTkey a < barTkey b := by
  by_cases hnil : df_slice = []
  · rw [hnil]
    simp [resample_ohlcv]
  by_cases h1m : timeframe = "1m"
  · subst h1m
    rw [resample_oneMinute_eq df_slice hnil]
    unfold oneMinute
    rw [List.pairwise_map]
    refine ((prep_pairwise df_slice).and hdist).imp ?_
    intro a b hab
    show tkey a < tkey b
    exact Nat.lt_of_le_of_ne hab.1 hab.2
  by_cases h1D : timeframe = "1D"
  · subst h1D
    rw [resample_oneD_eq df_slice hnil]
    unfold oneD
    rw [List.pairwise_map]
    have hdayle : ((prep df_slice).map (·.dateKey)).Pairwise
        fun a b => a ≤ b := by
      rw [List.pairwise_map]
      refine List.Pairwise.imp_of_mem ?_ (prep_pairwise df_slice)
      intro a b ha hb hab
      have ha' : a.sod < 86400 :=
        lt_of_le_of_lt (mem_prep_session ha).2 session_close_lt
      have hb' : b.sod < 86400 :=
        lt_of_le_of_lt (mem_prep_session hb).2 session_close_lt
      unfold tkey at hab
      omega
    have hle : (dedupFirst ((prep df_slice).map (·.dateKey))).Pairwise
        (fun a b => a ≤ b) := hdayle.sublist (dedupFirst_sublist _)
    have hne := pairwise_ne_dedupFirst ((prep df_slice).map (·.dateKey))
    refine (hle.and hne).imp ?_
    intro d d' hdd
    show barTkey (aggBar d 0 _) < barTkey (aggBar d' 0 _)
    have hlt : d < d' := Nat.lt_of_le_of_ne hdd.1 hdd.2
    unfold barTkey aggBar
    simp only
    omega
  · rw [resample_bucketed_eq timeframe df_slice h1m h1D hnil]
    rw [List.pairwise_map]
    refine (K_pairwise_lt _ _ (fun x hx => (mem_prep_session hx).2)
      (prep_pairwise df_slice)).imp ?_
    intro a b hab
    show barTkey (aggBar a.1 a.2 _) < barTkey (aggBar b.1 b.2 _)
    unfold nkey at hab
    unfold barTkey aggBar
    simp only
    omega

/-- **C5 witness.** The amended claim at the worked example slice and
timeframe `1m`. -/
theorem c5_strictly_ascending_witness :
    (resample_ohlcv exampleSlice "1m").Pairwise
      fun a b => barTkey a < barTkey b :=
  c5_strictly_ascending "1m" exampleSlice (by decide)

/-! ## C6 -/

/-- **C6.** For bucketing timeframes (neither `1m` nor `1D`): every
emitted bar sits on a bucket boundary aligned to the 09:15:00 session
start, aggregates a non-empty set of same-day candles of its own bucket
(so no bar mixes calendar days, and zero-candle buckets are never
emitted), and every occupied bucket — including a day's short final
bucket — yields a bar labelled by its bucket start. -/
theorem c6_day_buckets (timeframe : String) (df_slice : List Row)
    (h1m : ¬ timeframe = "1m") (h1D : ¬ timeframe = "1D") :
    (∀ b ∈ resample_ohlcv df_slice timeframe,
        (∃ j, b.tsSod = SESSION_OPEN + j * (60 * TF_MAP timeframe)) ∧
        ¬ bucketCandles timeframe df_slice b = [] ∧
        b = aggBar b.tsDate b.tsSod (bucketCandles timeframe df_slice b)) ∧
    (∀ x ∈ prep df_slice, ∃ b ∈ resample_ohlcv df_slice timeframe,
        b.tsDate = x.dateKey ∧
        b.tsSod = bstart (60 * TF_MAP timeframe) x.sod) := by
  constructor
  · intro b hb
    by_cases hnil : df_slice = []
    · rw [hnil] at hb
      simp [resample_ohlcv] at hb
    rw [resample_bucketed_eq timeframe df_slice h1m h1D hnil] at hb
    obtain ⟨k, hk, rfl⟩ := List.mem_map.mp hb
    have hkm : k ∈ (prep df_slice).map (bkey (60 * TF_MAP timeframe)) :=
      (mem_dedupFirst k _).mp hk
    obtain ⟨x, hx, hxk⟩ := List.mem_map.mp hkm
    refine ⟨⟨(x.sod - SESSION_OPEN) / (60 * TF_MAP timeframe), ?_⟩, ?_, ?_⟩
    · show k.2 = _
      rw [← hxk]
      rfl
    · unfold bucketCandles
      rw [if_neg h1D]
      exact filter_ne_nil_of_mem hx (by simp [hxk, aggBar])
    · unfold bucketCandles
      rw [if_neg h1D]
      rfl
  · intro x hx
    by_cases hnil : df_slice = []
    · rw [show prep df_slice = [] from by rw [hnil]; rfl] at hx
      exact absurd hx (List.not_mem_nil x)
    rw [resample_bucketed_eq timeframe df_slice h1m h1D hnil]
    refine ⟨aggBar (bkey (60 * TF_MAP timeframe) x).1
        (bkey (60 * TF_MAP timeframe) x).2
        ((prep df_slice).filter fun y =>
          bkey (60 * TF_MAP timeframe) y == bkey (60 * TF_MAP timeframe) x),
      ?_, rfl, rfl⟩
    refine List.mem_map.mpr ⟨bkey (60 * TF_MAP timeframe) x, ?_, rfl⟩
    exact (mem_dedupFirst _ _).mpr (List.mem_map_of_mem _ hx)

/-- **C6 witness.** The bucket properties at timeframe `15m` on the
worked example slice. -/
theorem c6_day_buckets_witness :
    (∀ b ∈ resample_ohlcv exampleSlice "15m",
        (∃ j, b.tsSod = SESSION_OPEN + j * (60 * TF_MAP "15m")) ∧
        ¬ bucketCandles "15m" exampleSlice b = [] ∧
        b = aggBar b.tsDate b.tsSod (bucketCandles "15m" exampleSlice b)) ∧
    (∀ x ∈ prep exampleSlice, ∃ b ∈ resample_ohlcv exampleSlice "15m",
        b.tsDate = x.dateKey ∧ b.tsSod = bstart (60 * TF_MAP "15m") x.sod) :=
  c6_day_buckets "15m" exampleSlice (by decide) (by decide)

/-! ## C4 -/

/-- **C4 counterexample.** Two candles at the same timestamp: the `1m`
path emits both unchanged, while `"2m"` falls back to the one-minute
*bucketing* rule and aggregates them into one bar — the outputs differ,
so an out-of-set timeframe is not output-identical to `1m` on every
slice. -/
theorem c4_counterexample :
    ¬ resample_ohlcv [exampleRow1, exampleRow1] "2m" =
        resample_ohlcv [exampleRow1, exampleRow1] "1m" := by
  intro h
  have := congrArg List.length h
  rw [show resample_ohlcv [exampleRow1, exampleRow1] "2m" =
        [⟨20241104, 33300, 100, 100, 100, 100, 20⟩] from rfl,
      show resample_ohlcv [exampleRow1, exampleRow1] "1m" =
        [⟨20241104, 33300, 100, 100, 100, 100, 10⟩,
         ⟨20241104, 33300, 100, 100, 100, 100, 10⟩] from rfl] at this
  simp at this

theorem bstart_self {sod : Nat} (hge : SESSION_OPEN ≤ sod)
    (hmod : sod % 60 = 0) : bstart 60 sod = sod := by
  unfold bstart
  have hdvd : 60 ∣ (sod - SESSION_OPEN) := by
    have h1 : 60 ∣ sod := Nat.dvd_of_mod_eq_zero hmod
    have h2 : (60 : Nat) ∣ SESSION_OPEN := by decide
    exact Nat.dvd_sub' h1 h2
  rw [Nat.div_mul_cancel hdvd]
  unfold SESSION_OPEN at hge ⊢
  omega

theorem filter_key_eq_singleton {α : Type} (f : α → Nat) :
    ∀ (l : List α) (x : α), l.Pairwise (fun a b => ¬ f a = f b) → x ∈ l →
      l.filter (fun y => f y == f x) = [x] := by
  intro l
  induction l with
  | nil =>
    intro x _ hx
    exact absurd hx (List.not_mem_nil x)
  | cons z zs ih =>
    intro x hpw hx
    rw [List.pairwise_cons] at hpw
    rcases List.mem_cons.mp hx with rfl | hxzs
    · rw [List.filter_cons_of_pos (by simp)]
      have : zs.filter (fun y => f y == f x) = [] := by
        rw [List.filter_eq_nil_iff]
        intro a ha
        simp only [beq_iff_eq]
        intro hfa
        exact hpw.1 a ha hfa.symm
      rw [this]
    · rw [List.filter_cons_of_neg (by
        simp only [beq_iff_eq]
        exact fun hzx => hpw.1 x hxzs hzx)]
      exact ih x hpw.2 hxzs

theorem resample_nil (timeframe : String) : resample_ohlcv [] timeframe = [] := by
  unfold resample_ohlcv
  rw [if_pos rfl]

/-- **C4 (amended).** A timeframe outside the enumerated set is never
rejected: it falls back to the `"1T"` rule, i.e. one-minute *bucketing*.
On slices satisfying the spec's candle model — minute-resolution
timestamps (seconds = 0) with at most one candle per timestamp — this is
output-identical to `1m`; the counterexample shows the identity fails
once duplicate timestamps (or sub-minute stamps) appear, because the
bucketed path aggregates per minute while `1m` emits candles unchanged. -/
theorem c4_unknown_timeframe (timeframe : String) (df_slice : List Row)
    (henum : ¬ timeframe ∈ ["1m", "3m", "5m", "10m", "15m", "30m", "1h", "1D"])
    (hmin : ∀ x ∈ prep df_slice, x.sod % 60 = 0)
    (hdist : (prep df_slice).Pairwise fun a b => ¬ tkey a = tkey b) :
    resample_ohlcv df_slice timeframe = resample_ohlcv df_slice "1m" := by
  simp only [List.mem_cons, List.not_mem_nil, or_false, not_or] at henum
  obtain ⟨h1m, h3m, h5m, h10m, h15m, h30m, h1h, h1D⟩ := henum
  have hTF : TF_MAP timeframe = 1 := by
    unfold TF_MAP
    rw [if_neg h1m, if_neg h3m, if_neg h5m, if_neg h10m, if_neg h15m,
      if_neg h30m, if_neg h1h, if_neg h1D]
  by_cases hnil : df_slice = []
  · rw [hnil, resample_nil, resample_nil]
  · rw [resample_bucketed_eq timeframe df_slice h1m h1D hnil,
      resample_oneMinute_eq df_slice hnil, hTF]
    have hbk : ∀ x ∈ prep df_slice, bkey (60 * 1) x = (x.dateKey, x.sod) := by
      intro x hx
      unfold bkey
      rw [show (60 * 1 : Nat) = 60 from rfl,
        bstart_self (mem_prep_session hx).1 (hmin x hx)]
    have hmapeq : (prep df_slice).map (bkey (60 * 1)) =
        (prep df_slice).map fun x => (x.dateKey, x.sod) :=
      List.map_congr_left hbk
    have hkeysdist : ((prep df_slice).map fun x => (x.dateKey, x.sod)).Pairwise
        fun a b => ¬ a = b := by
      rw [List.pairwise_map]
      refine List.Pairwise.imp_of_mem ?_ hdist
      intro a b ha hb hab heq
      refine hab ?_
      unfold tkey
      have h1 := congrArg Prod.fst heq
      have h2 := congrArg Prod.snd heq
      simp only at h1 h2
      rw [h1, h2]
    rw [hmapeq, dedupFirst_eq_self _ hkeysdist, List.map_map]
    unfold oneMinute
    refine List.map_congr_left ?_
    intro x hx
    show aggBar (x.dateKey, x.sod).1 (x.dateKey, x.sod).2
        ((prep df_slice).filter fun y => bkey (60 * 1) y == (x.dateKey, x.sod)) = _
    have hfeq : ((prep df_slice).filter fun y =>
        bkey (60 * 1) y == (x.dateKey, x.sod)) =
        (prep df_slice).filter fun y => tkey y == tkey x := by
      refine List.filter_congr ?_
      intro y hy
      rw [hbk y hy]
      have hy' : y.sod < 86400 :=
        lt_of_le_of_lt (mem_prep_session hy).2 session_close_lt
      have hx' : x.sod < 86400 :=
        lt_of_le_of_lt (mem_prep_session hx).2 session_close_lt
      by_cases heq : tkey y = tkey x
      · have := day_sod_inj hy' hx' heq
        simp [heq, Prod.ext_iff, this.1, this.2]
      · have hne : ¬ (y.dateKey, y.sod) = (x.dateKey, x.sod) := by
          intro hp
          refine heq ?_
          unfold tkey
          have h1 := congrArg Prod.fst hp
          have h2 := congrArg Prod.snd hp
          simp only at h1 h2
          rw [h1, h2]
        simp [heq, hne]
    rw [hfeq, filter_key_eq_singleton tkey _ x hdist hx]
    show aggBar x.dateKey x.sod [x] = _
    simp [aggBar, firstOp, maxHigh, minLow, lastClose, sumVolume]

/-- **C4 witness.** The amended claim at timeframe `"2m"` (outside the
enumerated set) on the worked example slice. -/
theorem c4_unknown_timeframe_witness :
    resample_ohlcv exampleSlice "2m" = resample_ohlcv exampleSlice "1m" :=
  c4_unknown_timeframe "2m" exampleSlice (by decide) (by decide) (by decide)

/-! ## Orchestrator lemmas -/

theorem get_chart_hit (env : Env) (c : Cache) (req : Request) (e s : String)
    (n : Int) (v : List Bar)
    (he : req.expiry = some e) (he' : ¬ e = "")
    (hs : req.strike = some s) (hs' : ¬ s = "")
    (hn : pyInt? s = some n)
    (hv : c.lookup (e, toString n, optTypeOf req, tfOf req) = some v) :
    get_chart env c req = (.ok v, c, noEffects) := by
  simp only [get_chart, he, hs, hn, if_neg he', if_neg hs', hv]

theorem lookup_cons_self {k : CacheKey} {v : List Bar} {c : Cache} :
    ((k, v) :: c).lookup k = some v := by
  simp [List.lookup]

theorem get_chart_ok_inv (env : Env) (c : Cache) (req : Request)
    (bs : List Bar) (c' : Cache) (eff : Effects)
    (h : get_chart env c req = (.ok bs, c', eff)) :
    ∃ e s n, req.expiry = some e ∧ ¬ e = "" ∧ req.strike = some s ∧ ¬ s = "" ∧
      pyInt? s = some n ∧
      c'.lookup (e, toString n, optTypeOf req, tfOf req) = some bs := by
  cases hexp : req.expiry with
  | none => simp only [get_chart, hexp] at h; simp at h
  | some e =>
    by_cases he : e = ""
    · simp only [get_chart, hexp, if_pos he] at h; simp at h
    cases hstr : req.strike with
    | none => simp only [get_chart, hexp, if_neg he, hstr] at h; simp at h
    | some s =>
      by_cases hs : s = ""
      · simp only [get_chart, hexp, if_neg he, hstr, if_pos hs] at h; simp at h
      cases hn : pyInt? s with
      | none =>
        simp only [get_chart, hexp, if_neg he, hstr, if_neg hs, hn] at h
        simp at h
      | some n =>
        simp only [get_chart, hexp, if_neg he, hstr, if_neg hs, hn] at h
        refine ⟨e, s, n, rfl, he, rfl, hs, hn, ?_⟩
        cases hcache : c.lookup (e, toString n, optTypeOf req, tfOf req) with
        | some v =>
          simp only [hcache] at h
          simp only [Prod.mk.injEq, ChartResult.ok.injEq] at h
          rw [← h.2.1, hcache, h.1]
        | none =>
          simp only [hcache] at h
          have hafter : ∀ rows : List Row,
              afterRead c (e, toString n, optTypeOf req, tfOf req)
                  (toString n) (optTypeOf req) (tfOf req) rows = (.ok bs, c', eff) →
                c'.lookup (e, toString n, optTypeOf req, tfOf req) = some bs := by
            intro rows hr
            unfold afterRead at hr
            by_cases hflt : rows.filter (rowMatches (toString n) (optTypeOf req)) = []
            · rw [if_pos hflt] at hr; simp at hr
            · rw [if_neg hflt] at hr
              simp only [Prod.mk.injEq, ChartResult.ok.injEq] at hr
              rw [← hr.2.1, ← hr.1, lookup_cons_self]
          cases hpq : env.parquetFiles.lookup (pyLower e) with
          | some rows =>
            simp only [hpq] at h
            exact hafter rows h
          | none =>
            simp only [hpq] at h
            cases hcsv : env.csvFiles.lookup (pyLower e) with
            | some csvRows =>
              simp only [hcsv] at h
              cases hread : readCsv csvRows with
              | none => simp only [hread] at h; simp at h
              | some rows =>
                simp only [hread] at h
                exact hafter rows h
            | none => simp only [hcsv] at h; simp at h

/-! ## C3 -/

/-- **C3.** After a request completes successfully, the computed bar
sequence sits in the result cache under the request's fingerprint (the
miss path stores it before returning), and re-issuing the identical
request returns the identical result from the cache, leaving the cache
unchanged and performing no dataset file read and no aggregation. -/
theorem c3_result_cache (env : Env) (c : Cache) (req : Request)
    (bs : List Bar) (c' : Cache) (eff : Effects)
    (h : get_chart env c req = (.ok bs, c', eff)) :
    (∃ e s n, req.expiry = some e ∧ req.strike = some s ∧ pyInt? s = some n ∧
      c'.lookup (e, toString n, optTypeOf req, tfOf req) = some bs) ∧
    get_chart env c' req = (.ok bs, c', noEffects) := by
  obtain ⟨e, s, n, he, he', hs, hs', hn, hv⟩ := get_chart_ok_inv env c req bs c' eff h
  exact ⟨⟨e, s, n, he, hs, hn, hv⟩, get_chart_hit env c' req e s n bs he he' hs hs' hn hv⟩

/-- **C3 witness.** Running the witness request against an empty cache
computes and stores the example bar; the theorem applied at that concrete
state: the fingerprint is cached and the identical second request is a
pure cache hit with no effects. -/
theorem c3_result_cache_witness :
    (∃ e s n, witnessReq.expiry = some e ∧ witnessReq.strike = some s ∧
      pyInt? s = some n ∧
      (((("04nov25", "24700", "PE", "3m") : CacheKey),
          [(⟨20241104, 33300, 100, 102, 100, 101, 30⟩ : Bar)]) ::
        ([] : Cache)).lookup (e, toString n, optTypeOf witnessReq, tfOf witnessReq) =
        some [⟨20241104, 33300, 100, 102, 100, 101, 30⟩]) ∧
    get_chart witnessEnv
        [(("04nov25", "24700", "PE", "3m"), [⟨20241104, 33300, 100, 102, 100, 101, 30⟩])]
        witnessReq =
      (.ok [⟨20241104, 33300, 100, 102, 100, 101, 30⟩],
        [(("04nov25", "24700", "PE", "3m"), [⟨20241104, 33300, 100, 102, 100, 101, 30⟩])],
        noEffects) :=
  c3_result_cache witnessEnv [] witnessReq _ _ ⟨1, 1⟩ (by rfl)

/-! ## C7 -/

/-- **C7.** For a valid, uncached request: if neither a parquet nor a CSV
file exists for the expiry, the request fails with the
dataset-not-found error; if a file exists and its read succeeds but no
row matches the requested strike and option type, it fails with the
no-matching-data error (shown for both encodings). -/
theorem c7_lookup_errors (env : Env) (c : Cache) (req : Request)
    (e s : String) (n : Int)
    (he : req.expiry = some e) (he' : ¬ e = "")
    (hs : req.strike = some s) (hs' : ¬ s = "")
    (hn : pyInt? s = some n)
    (hmiss : c.lookup (e, toString n, optTypeOf req, tfOf req) = none) :
    (env.parquetFiles.lookup (pyLower e) = none →
      env.csvFiles.lookup (pyLower e) = none →
      get_chart env c req = (.errNotFound, c, noEffects)) ∧
    (∀ rows, env.parquetFiles.lookup (pyLower e) = some rows →
      rows.filter (rowMatches (toString n) (optTypeOf req)) = [] →
      get_chart env c req = (.errNoData, c, ⟨1, 0⟩)) ∧
    (∀ csvRows rows, env.parquetFiles.lookup (pyLower e) = none →
      env.csvFiles.lookup (pyLower e) = some csvRows →
      readCsv csvRows = some rows →
      rows.filter (rowMatches (toString n) (optTypeOf req)) = [] →
      get_chart env c req = (.errNoData, c, ⟨1, 0⟩)) := by
  refine ⟨?_, ?_, ?_⟩
  · intro hpq hcsv
    simp only [get_chart, he, hs, hn, if_neg he', if_neg hs', hmiss, hpq, hcsv]
  · intro rows hpq hflt
    simp only [get_chart, he, hs, hn, if_neg he', if_neg hs', hmiss, hpq,
      afterRead, if_pos hflt]
  · intro csvRows rows hpq hcsv hread hflt
    simp only [get_chart, he, hs, hn, if_neg he', if_neg hs', hmiss, hpq, hcsv,
      hread, afterRead, if_pos hflt]

/-- **C7 witness.** The witness environment holds only the example
dataset; strike `99999` is valid but matches nothing. -/
theorem c7_lookup_errors_witness :
    (witnessEnv.parquetFiles.lookup (pyLower "04nov25") = none →
      witnessEnv.csvFiles.lookup (pyLower "04nov25") = none →
      get_chart witnessEnv [] reqC7 = (.errNotFound, [], noEffects)) ∧
    (∀ rows, witnessEnv.parquetFiles.lookup (pyLower "04nov25") = some rows →
      rows.filter (rowMatches (toString (99999 : Int)) (optTypeOf reqC7)) = [] →
      get_chart witnessEnv [] reqC7 = (.errNoData, [], ⟨1, 0⟩)) ∧
    (∀ csvRows rows, witnessEnv.parquetFiles.lookup (pyLower "04nov25") = none →
      witnessEnv.csvFiles.lookup (pyLower "04nov25") = some csvRows →
      readCsv csvRows = some rows →
      rows.filter (rowMatches (toString (99999 : Int)) (optTypeOf reqC7)) = [] →
      get_chart witnessEnv [] reqC7 = (.errNoData, [], ⟨1, 0⟩)) :=
  c7_lookup_errors witnessEnv [] reqC7 "04nov25" "99999" 99999
    rfl (by decide) rfl (by decide) (by rfl) (by rfl)

/-! ## C8 -/

/-- **C8 (code behavior, including the failing input).** Missing expiry
and missing strike surface as typed 400 errors, and a valid strike is
normalized by `str(int(strike))` (leading zeros stripped); but a strike
that `int()` cannot coerce (`"abc"`) raises an uncaught `ValueError` at
line 129 — a stack-trace 500, not one of the handler's typed errors —
contradicting the claim's middle part. -/
theorem c8_parameter_errors :
    get_chart ⟨[], []⟩ [] ⟨some "1m", some "abc", some "PE", some "04nov25"⟩ =
      (.valueError, [], noEffects) ∧
    pyInt? "abc" = none ∧
    get_chart ⟨[], []⟩ [] ⟨some "1m", none, some "PE", some "04nov25"⟩ =
      (.errMissingStrike, [], noEffects) ∧
    get_chart ⟨[], []⟩ [] ⟨some "1m", some "24700", some "PE", none⟩ =
      (.errMissingExpiry, [], noEffects) ∧
    pyInt? "0024700" = some 24700 ∧ toString (24700 : Int) = "24700" := by
  exact ⟨rfl, rfl, rfl, rfl, rfl, rfl⟩

/-! ## C9 -/

/-- **C9 counterexample.** One isolated malformed row in a CSV dataset
(`volume = "x"`) makes `pd.read_csv`'s dtype coercion raise, and the
handler's `except` turns that into a whole-request 500 — the request is
aborted, not recovered row-by-row; without the bad row the identical
request succeeds. -/
theorem c9_counterexample :
    get_chart envIsolatedBadRow [] reqC9 = (.errRead, [], ⟨1, 0⟩) ∧
    get_chart envWithoutBadRow [] reqC9 =
      (.ok [⟨20241104, 33300, 100, 100, 100, 100, 10⟩],
        [(("04nov25", "24700", "PE", "1m"),
          [⟨20241104, 33300, 100, 100, 100, 100, 10⟩])], ⟨1, 1⟩) := by
  exact ⟨rfl, rfl⟩

/-- **C9 (amended).** The row-level recovery that exists sits in the
resampler: rows whose timestamp fails to parse (NaT after coercion) are
dropped and the stream continues — removing them beforehand leaves every
output unchanged.  But in the row-oriented text encoding a row whose
numeric field fails dtype coercion aborts the whole read: the request
fails with the typed read error (a 500), it is not recovered row by
row. -/
theorem c9_row_recovery :
    (∀ (df_slice : List Row) (timeframe : String),
        resample_ohlcv df_slice timeframe =
          resample_ohlcv (df_slice.filter fun r => (parseTs r.timestamp).isSome)
            timeframe) ∧
    (∀ (env : Env) (c : Cache) (req : Request) (e s : String) (n : Int)
        (csvRows : List CsvRow),
        req.expiry = some e → ¬ e = "" → req.strike = some s → ¬ s = "" →
        pyInt? s = some n →
        c.lookup (e, toString n, optTypeOf req, tfOf req) = none →
        env.parquetFiles.lookup (pyLower e) = none →
        env.csvFiles.lookup (pyLower e) = some csvRows →
        readCsv csvRows = none →
        get_chart env c req = (.errRead, c, ⟨1, 0⟩)) := by
  constructor
  · intro df_slice timeframe
    by_cases h1 : df_slice = []
    · rw [h1]
      rfl
    by_cases h2 : df_slice.filter (fun r => (parseTs r.timestamp).isSome) = []
    · have hps : parseStage df_slice = [] := by
        rw [← parseStage_filter_isSome df_slice, h2]
        rfl
      rw [resample_of_prep_nil timeframe (prep_nil_iff_parseStage df_slice hps), h2]
      rfl
    · exact resample_eq_of_prep_eq timeframe
        (prep_eq_of_parseStage_eq (parseStage_filter_isSome df_slice)).symm h1 h2
  · intro env c req e s n csvRows he he' hs hs' hn hmiss hpq hcsv hread
    simp only [get_chart, he, hs, hn, if_neg he', if_neg hs', hmiss, hpq, hcsv, hread]

/-! ## C10 -/

theorem char_toNat_ofNat {n : Nat} (h : n < 55296) : (Char.ofNat n).toNat = n := by
  unfold Char.ofNat
  rw [dif_pos (Or.inl h)]
  rfl

theorem char_toUpper_idem (c : Char) : c.toUpper.toUpper = c.toUpper := by
  by_cases h : 97 ≤ c.toNat ∧ c.toNat ≤ 122
  · have h1 : c.toUpper = Char.ofNat (c.toNat - 32) := by
      simp only [Char.toUpper]
      rw [if_pos h]
    have h2 : (Char.ofNat (c.toNat - 32)).toNat = c.toNat - 32 :=
      char_toNat_ofNat (by omega)
    rw [h1]
    simp only [Char.toUpper]
    rw [if_neg (by rw [h2]; omega)]
  · have h1 : c.toUpper = c := by
      simp only [Char.toUpper]
      rw [if_neg h]
    rw [h1, h1]

theorem pyUpper_idem (s : String) : pyUpper (pyUpper s) = pyUpper s := by
  unfold pyUpper
  refine congrArg String.mk ?_
  show (s.data.map Char.toUpper).map Char.toUpper = s.data.map Char.toUpper
  rw [List.map_map]
  exact List.map_congr_left fun c _ => char_toUpper_idem c

/-- `get_chart` reads the request only through these four projections. -/
theorem get_chart_congr (env : Env) (c : Cache) {r1 r2 : Request}
    (he : r1.expiry = r2.expiry) (hs : r1.strike = r2.strike)
    (ht : tfOf r1 = tfOf r2) (ho : optTypeOf r1 = optTypeOf r2) :
    get_chart env c r1 = get_chart env c r2 := by
  unfold get_chart
  rw [he, hs, ht, ho]

/-- **C10.** The `type` parameter is uppercased (`.upper()`, line 121)
before it is used either as the symbol-filter predicate or as a
component of the result-cache key: a request with any casing of the
option type behaves exactly like the request with its uppercased form.
(`pyUpper` is `String.toUpper`, by `string_toUpper_eq_pyUpper`.) -/
theorem c10_type_uppercased (env : Env) (c : Cache) (req : Request) (s : String) :
    get_chart env c { req with type := some s } =
      get_chart env c { req with type := some (pyUpper s) } := by
  refine get_chart_congr env c rfl rfl rfl ?_
  unfold optTypeOf
  simp only [Option.getD_some]
  exact (pyUpper_idem s).symm
